import Mathlib

/-!
Shallow embedding of `pyon/ion/process.py` (class `IonProcessThread`):
the serialized control loop (`_control_flow`), call routing
(`_routing_call`), cancellation (`_cancel_pending_call`,
`cancel_or_abort_call`), heartbeat stall detection (`heartbeat`),
time statistics (`time_stats`) and the stop sequence (`_notify_stop`).

Opaque callables (`call(*callargs, **callkwargs)`) are abstracted by the
observable behaviour of one invocation: an outcome (return value, raised
exception class, or the injected `OperationInterruptedException`) together
with the wall-clock duration of the invocation.  Timestamps
(`get_ion_ts()`) are integer milliseconds, modelled by `Nat` advanced by
each call's duration.  `AsyncResult` cells are keyed by a numeric id; the
set of resolved cells is an association list (a cell is written at most
once by the loop, which skips descriptors whose cell is already set).
-/

namespace IonProcess

/-- A Python value as it flows through an `AsyncResult`: `None`, a bool
(`False` is the cancellation sentinel written by `_cancel_pending_call`),
or an opaque return value of a call. -/
inductive PyVal where
  | none : PyVal
  | bool (b : Bool) : PyVal
  | val (n : Nat) : PyVal
deriving DecidableEq, Repr

/-- Exception delivered into a calling greenlet by `calling_gl.kill`:
either the original client-side exception (a `TypeError` or `IonException`,
forwarded as-is, identified by its code), or a `ContainerError` wrapping a
description (`str(exc)`, which embeds the call, its arguments and the
formatted traceback) of an unexpected internal failure. -/
inductive Exc where
  | client (code : Nat) : Exc
  | container (detail : Nat) : Exc
deriving DecidableEq, Repr

/-- Exception raised by an executed operation body, classified the way
`_control_flow` classifies it: `isinstance(e, (TypeError, IonException))`
is a client error, anything else an internal error.  The code identifies
the concrete exception object. -/
inductive RaisedExc where
  | clientErr (code : Nat) : RaisedExc
  | internalErr (code : Nat) : RaisedExc
deriving DecidableEq, Repr

/-- Behaviour of one invocation of an operation body inside the control
loop: normal return, `OperationInterruptedException` (injected abort), or
a raised exception. -/
inductive OpOutcome where
  | success (v : PyVal) : OpOutcome
  | interrupted : OpOutcome
  | raised (e : RaisedExc) : OpOutcome
deriving DecidableEq, Repr

/-- The optional process-context dict attached to a call; only the
optional `reply-by` deadline timestamp (ms) is observable to the loop. -/
structure Context where
  replyBy : Option Nat
deriving DecidableEq, Repr

/-- One tuple placed on `_ctrl_queue` by `_routing_call`:
`(greenlet.getcurrent(), ar, call, callargs, callkwargs, context)`.
The calling greenlet and the `AsyncResult` are numeric ids; the callable
with its arguments is abstracted by its outcome and duration. -/
structure CallDescriptor where
  callingGl : Nat
  arId : Nat
  outcome : OpOutcome
  duration : Nat
  context : Option Context
deriving DecidableEq, Repr

/-- An item of `_ctrl_queue`: a routed call tuple or the `StopIteration`
sentinel put by `_notify_stop`, which ends the `for` iteration. -/
inductive QItem where
  | call (d : CallDescriptor) : QItem
  | stopIteration : QItem
deriving DecidableEq, Repr

/-- Mutable state of the process observable by the claims: current time
(ms), `_proc_time`, `_errors`, the resolved `AsyncResult` cells,
exceptions delivered to calling greenlets, `_ctrl_current`, and the order
in which operation bodies actually ran (the shared execution log of the
spec's ordering property). -/
structure ProcState where
  now : Nat
  procTime : Nat
  errors : List Nat
  futures : List (Nat × PyVal)
  killed : List (Nat × Exc)
  ctrlCurrent : Option Nat
  execLog : List Nat
deriving DecidableEq, Repr

/-- `ar.ready()`: the cell has been set. -/
def arReady (s : ProcState) (i : Nat) : Bool :=
  (s.futures.lookup i).isSome

/-- `ar.set(v)`: resolve the cell with a value. -/
def arSet (s : ProcState) (i : Nat) (v : PyVal) : ProcState :=
  { s with futures := (i, v) :: s.futures }

/-- The expiration test of `_control_flow`: `context is not None and
'reply-by' in context and start_proc_time >= int(context['reply-by'])`. -/
def expiredAt (now : Nat) (d : CallDescriptor) : Bool :=
  match d.context with
  | some c =>
    match c.replyBy with
    | some rb => decide (now ≥ rb)
    | Option.none => false
  | Option.none => false

/-- One iteration of the `for calltuple in self._ctrl_queue` loop of
`_control_flow` on a dequeued call tuple: skip if the `reply-by` deadline
has passed, skip if the `AsyncResult` is already set (cancelled),
otherwise set `_ctrl_current`, run the body (the run takes
`d.duration` ms), dispatch on the outcome (`OperationInterruptedException`
swallowed; `TypeError`/`IonException` forwarded as-is to the calling
greenlet; anything else appended to `_errors` and a `ContainerError`
wrapping its description delivered), then in the `finally` block
accumulate `_proc_time` and clear `_ctrl_current`, and finally
`ar.set(res)` where `res` is the return value on success and `None`
otherwise. -/
def controlStep (s : ProcState) (d : CallDescriptor) : ProcState :=
  let startProcTime := s.now
  if expiredAt startProcTime d then s
  else if arReady s d.arId then s
  else
    let s1 : ProcState :=
      { s with ctrlCurrent := some d.arId
               execLog := s.execLog ++ [d.arId]
               now := s.now + d.duration }
    let step2 : ProcState × PyVal :=
      match d.outcome with
      | OpOutcome.success v => (s1, v)
      | OpOutcome.interrupted => (s1, PyVal.none)
      | OpOutcome.raised (RaisedExc.clientErr c) =>
        ({ s1 with killed := s1.killed ++ [(d.callingGl, Exc.client c)] },
         PyVal.none)
      | OpOutcome.raised (RaisedExc.internalErr c) =>
        ({ s1 with errors := s1.errors ++ [d.arId]
                   killed := s1.killed ++ [(d.callingGl, Exc.container c)] },
         PyVal.none)
    let s3 : ProcState :=
      { step2.1 with procTime := step2.1.procTime + (step2.1.now - startProcTime)
                     ctrlCurrent := Option.none }
    arSet s3 d.arId step2.2

/-- The dequeue condition under which `controlStep` actually runs the
operation body (neither skip branch taken). -/
def willExecute (s : ProcState) (d : CallDescriptor) : Bool :=
  !expiredAt s.now d && !arReady s d.arId

/-- The `_control_flow` loop over the queue contents: handle routed call
tuples in order; the `StopIteration` sentinel ends the iteration; an
exhausted list models the loop blocked waiting on an empty queue. -/
def control_flow (s : ProcState) : List QItem → ProcState
  | [] => s
  | QItem.stopIteration :: _ => s
  | QItem.call d :: rest => control_flow (controlStep s d) rest

/-- `_routing_call`: build the call tuple, put it on `_ctrl_queue`, and
return the fresh `AsyncResult` (its id) immediately. -/
def routing_call (q : List QItem) (d : CallDescriptor) : List QItem × Nat :=
  (q ++ [QItem.call d], d.arId)

/-- `has_pending_call`: some tuple on `_ctrl_queue` carries this
`AsyncResult`. -/
def has_pending_call (q : List QItem) (i : Nat) : Bool :=
  q.any fun it =>
    match it with
    | QItem.call d => d.arId == i
    | QItem.stopIteration => false

/-- `_cancel_pending_call`: if the call is still pending, set its
`AsyncResult` to `False` (the cancellation sentinel) and report `True`. -/
def cancel_pending_call (s : ProcState) (q : List QItem) (i : Nat) :
    ProcState × Bool :=
  if has_pending_call q i then (arSet s i (PyVal.bool false), true)
  else (s, false)

/-- `cancel_or_abort_call`: cancel the pending call, or, when it is not
pending and its `AsyncResult` is unset, interrupt the control thread
(`_interrupt_control_thread`); the boolean reports the interrupt. -/
def cancel_or_abort_call (s : ProcState) (q : List QItem) (i : Nat) :
    ProcState × Bool :=
  let r := cancel_pending_call s q i
  if !r.2 && !arReady r.1 i then (r.1, true) else (r.1, false)

/-- Heartbeat bookkeeping of `IonProcessThread`: `_heartbeat_op` (the
`AsyncResult` of the last observed executing call), `_heartbeat_stack`
(the stack snapshot captured at the last state change, an opaque id),
`_heartbeat_time` (timestamp of the last state change, ms) and
`_heartbeat_count` (consecutive identical observations). -/
structure HBState where
  op : Option Nat
  stack : Option Nat
  time : Nat
  count : Nat
deriving DecidableEq, Repr

/-- The stall-detection part of `heartbeat()` (the third component of its
returned triple, together with the updated bookkeeping): given the current
`_ctrl_current`, the freshly captured stack snapshot and the current time,
with the two `CFG` thresholds (`heartbeat_proc_count_threshold`, default
30, and `heartbeat_proc_time_threshold`, default 30 seconds).  The first
two components of the source's triple, `listeners_ok` and
`ctrl_thread_ok`, are direct liveness reads of external child greenlets
and are not modelled. -/
def heartbeat (countThreshold timeThreshold : Nat) (h : HBState)
    (ctrlCurrent : Option Nat) (st : Nat) (now : Nat) : HBState × Bool :=
  match ctrlCurrent with
  | some cur =>
    if h.op = some cur then
      if h.stack = some st then
        let h1 : HBState := { h with count := h.count + 1 }
        (h1,
         !(decide (h1.count > countThreshold) ||
           decide ((now : Int) - (h.time : Int) ≥ (timeThreshold : Int) * 1000)))
      else
        ({ h with count := 1, stack := some st, time := now }, true)
    else
      ({ op := some cur, count := 1, time := now, stack := some st }, true)
  | Option.none => ({ h with op := Option.none, count := 0 }, true)

/-- `time_stats`: `(running_time, idle_time, proc_time)` in ms, where
`running_time = now - start_time` and
`idle_time = running_time - proc_time`. -/
def time_stats (now startTime procTime : Int) : Int × Int × Int :=
  let runningTime := now - startTime
  let idleTime := runningTime - procTime
  (runningTime, idleTime, procTime)

/-- An observable action of the `_notify_stop` sequence. -/
inductive StopAction where
  | closeListener (l : Nat) : StopAction
  | putStopSentinel : StopAction
  | waitChildren (timeoutSecs : Nat) : StopAction
  | notifyStopBase : StopAction
  | runCleanup : StopAction
deriving DecidableEq, Repr

/-- `_notify_stop` as the trace of actions it performs, plus whether it
re-raises: close every listener, put `StopIteration` on `_ctrl_queue`,
`thread_manager.wait_children(30)` (which re-raises an aggregated child
failure, modelled by `childFailure`, aborting the rest of the sequence),
then `PyonThread._notify_stop`, then the cleanup method if one was
given. -/
def notify_stop (listeners : List Nat) (hasCleanup childFailure : Bool) :
    List StopAction × Bool :=
  let pre := listeners.map StopAction.closeListener ++
    [StopAction.putStopSentinel, StopAction.waitChildren 30]
  if childFailure then (pre, true)
  else
    (pre ++ [StopAction.notifyStopBase] ++
      (if hasCleanup then [StopAction.runCleanup] else []), false)

/-- The ids of the operation bodies `control_flow` actually executes, in
execution order, starting from state `s`: a call is executed when neither
skip branch of `controlStep` fires. -/
def executedIds (s : ProcState) : List QItem → List Nat
  | [] => []
  | QItem.stopIteration :: _ => []
  | QItem.call d :: rest =>
    (if willExecute s d then [d.arId] else []) ++ executedIds (controlStep s d) rest

/-- The `AsyncResult` ids of the routed calls sitting on the queue, in
queue order. -/
def queueCallIds (q : List QItem) : List Nat :=
  q.filterMap fun it =>
    match it with
    | QItem.call d => some d.arId
    | QItem.stopIteration => Option.none

/-- The value `_control_flow` writes into the `AsyncResult` of an executed
call: `res` is the return value on success and remains `None` on the
interrupt and on both exception paths. -/
def resOf : OpOutcome → PyVal
  | OpOutcome.success v => v
  | OpOutcome.interrupted => PyVal.none
  | OpOutcome.raised _ => PyVal.none

/-- The entries an executed call appends to `_errors`: only an internal
(non-client) exception is recorded. -/
def errorsOf (d : CallDescriptor) : List Nat :=
  match d.outcome with
  | OpOutcome.raised (RaisedExc.internalErr _) => [d.arId]
  | _ => []

/-- The exception an executed call delivers into its calling greenlet:
the client exception as-is, or a `ContainerError` wrapping the internal
failure's description; nothing on success or interrupt. -/
def killedOf (d : CallDescriptor) : List (Nat × Exc) :=
  match d.outcome with
  | OpOutcome.raised (RaisedExc.clientErr c) => [(d.callingGl, Exc.client c)]
  | OpOutcome.raised (RaisedExc.internalErr c) => [(d.callingGl, Exc.container c)]
  | _ => []

theorem willExecute_iff (s : ProcState) (d : CallDescriptor) :
    willExecute s d = true ↔
      (expiredAt s.now d = false ∧ arReady s d.arId = false) := by
  unfold willExecute
  cases expiredAt s.now d <;> cases arReady s d.arId <;> simp

theorem controlStep_skip (s : ProcState) (d : CallDescriptor)
    (h : willExecute s d = false) : controlStep s d = s := by
  unfold willExecute at h
  unfold controlStep
  cases hexp : expiredAt s.now d with
  | true => simp [hexp]
  | false =>
    cases hrdy : arReady s d.arId with
    | true => simp [hexp, hrdy]
    | false => rw [hexp, hrdy] at h; simp at h

theorem controlStep_exec (s : ProcState) (d : CallDescriptor)
    (h : willExecute s d = true) :
    controlStep s d =
      { now := s.now + d.duration
        procTime := s.procTime + d.duration
        errors := s.errors ++ errorsOf d
        futures := (d.arId, resOf d.outcome) :: s.futures
        killed := s.killed ++ killedOf d
        ctrlCurrent := Option.none
        execLog := s.execLog ++ [d.arId] } := by
  rw [willExecute_iff] at h
  obtain ⟨hexp, hrdy⟩ := h
  unfold controlStep
  simp only [hexp, hrdy, Bool.false_eq_true, if_false]
  cases ho : d.outcome with
  | success v => simp [arSet, resOf, errorsOf, killedOf, ho]
  | interrupted => simp [arSet, resOf, errorsOf, killedOf, ho]
  | raised e =>
    cases e with
    | clientErr c => simp [arSet, resOf, errorsOf, killedOf, ho]
    | internalErr c => simp [arSet, resOf, errorsOf, killedOf, ho]

theorem arReady_arSet_self (s : ProcState) (i : Nat) (v : PyVal) :
    arReady (arSet s i v) i = true := by
  simp [arReady, arSet, List.lookup]

theorem arReady_controlStep (s : ProcState) (d : CallDescriptor) (i : Nat)
    (h : arReady s i = true) : arReady (controlStep s d) i = true := by
  cases hwe : willExecute s d with
  | false => rw [controlStep_skip s d hwe]; exact h
  | true =>
    rw [controlStep_exec s d hwe]
    unfold arReady at h ⊢
    simp only [List.lookup]
    split
    · simp
    · exact h

theorem executedIds_not_ready (i : Nat) (q : List QItem) (s : ProcState)
    (h : arReady s i = true) : i ∉ executedIds s q := by
  induction q generalizing s with
  | nil => simp [executedIds]
  | cons it rest ih =>
    cases it with
    | stopIteration => simp [executedIds]
    | call d =>
      simp only [executedIds]
      cases hwe : willExecute s d with
      | false =>
        simp only [Bool.false_eq_true, if_false, List.nil_append]
        exact ih (controlStep s d) (arReady_controlStep s d i h)
      | true =>
        simp only [if_true, List.singleton_append, List.mem_cons, not_or]
        refine ⟨fun heq => ?_, ih (controlStep s d) (arReady_controlStep s d i h)⟩
        rw [willExecute_iff] at hwe
        rw [heq] at h
        rw [h] at hwe
        exact absurd hwe.2 (by simp)

theorem control_flow_execLog (s : ProcState) (q : List QItem) :
    (control_flow s q).execLog = s.execLog ++ executedIds s q := by
  induction q generalizing s with
  | nil => simp [control_flow, executedIds]
  | cons it rest ih =>
    cases it with
    | stopIteration => simp [control_flow, executedIds]
    | call d =>
      simp only [control_flow, executedIds]
      rw [ih (controlStep s d)]
      cases hwe : willExecute s d with
      | false => rw [controlStep_skip s d hwe]; simp
      | true => rw [controlStep_exec s d hwe]; simp

theorem queueCallIds_cons_call (d : CallDescriptor) (rest : List QItem) :
    queueCallIds (QItem.call d :: rest) = d.arId :: queueCallIds rest := rfl

theorem executedIds_sublist (s : ProcState) (q : List QItem) :
    List.Sublist (executedIds s q) (queueCallIds q) := by
  induction q generalizing s with
  | nil => simp [executedIds, queueCallIds]
  | cons it rest ih =>
    cases it with
    | stopIteration => simp [executedIds]
    | call d =>
      rw [queueCallIds_cons_call]
      simp only [executedIds]
      cases hwe : willExecute s d with
      | false =>
        simp only [Bool.false_eq_true, if_false, List.nil_append]
        exact (ih (controlStep s d)).cons d.arId
      | true =>
        simp only [if_true, List.singleton_append]
        exact (ih (controlStep s d)).cons₂ d.arId

theorem procTime_le_controlStep (s : ProcState) (d : CallDescriptor) :
    s.procTime ≤ (controlStep s d).procTime := by
  cases hwe : willExecute s d with
  | false => rw [controlStep_skip s d hwe]
  | true => rw [controlStep_exec s d hwe]; exact Nat.le_add_right _ _

theorem procTime_le_control_flow (s : ProcState) (q : List QItem) :
    s.procTime ≤ (control_flow s q).procTime := by
  induction q generalizing s with
  | nil => exact Nat.le_refl _
  | cons it rest ih =>
    cases it with
    | stopIteration => exact Nat.le_refl _
    | call d =>
      exact Nat.le_trans (procTime_le_controlStep s d) (ih (controlStep s d))

theorem control_flow_append_calls (s : ProcState) (descs : List CallDescriptor)
    (r : List QItem) :
    control_flow s (descs.map QItem.call ++ r) =
      control_flow (List.foldl controlStep s descs) r := by
  induction descs generalizing s with
  | nil => rfl
  | cons d ds ih => exact ih (controlStep s d)

/-- C1: for every sequence of call descriptors enqueued via
`_routing_call`, the control loop executes the operation bodies in exactly
the enqueue (FIFO) order: the execution log grows by `executedIds`, the
executed calls taken in queue order, and that list is a sublist of the
queued ids — a skipped (expired or pre-cancelled) descriptor does not
reorder the survivors and no call runs before an earlier-enqueued call. -/
theorem C1_fifo_order (s : ProcState) (q : List QItem) :
    (control_flow s q).execLog = s.execLog ++ executedIds s q ∧
    List.Sublist (executedIds s q) (queueCallIds q) :=
  ⟨control_flow_execLog s q, executedIds_sublist s q⟩

/-- C3: a dequeued descriptor whose context carries a `reply-by` deadline
not after the dequeue time is skipped entirely: the state is unchanged
(operation not invoked, `AsyncResult` not set, no busy time accumulated)
and the loop continues with the next descriptor. -/
theorem C3_expired_skip (s : ProcState) (d : CallDescriptor) (c : Context)
    (rb : Nat) (rest : List QItem)
    (hc : d.context = some c) (hrb : c.replyBy = some rb)
    (hle : rb ≤ s.now) :
    controlStep s d = s ∧
    control_flow s (QItem.call d :: rest) = control_flow s rest := by
  have hexp : expiredAt s.now d = true := by
    simp only [expiredAt, hc, hrb, decide_eq_true_eq]
    exact hle
  have hwe : willExecute s d = false := by
    simp [willExecute, hexp]
  refine ⟨controlStep_skip s d hwe, ?_⟩
  simp only [control_flow]
  rw [controlStep_skip s d hwe]

/-- Witness for C3 at a concrete expired call. -/
theorem C3_expired_skip_witness :
    controlStep ⟨100, 0, [], [], [], Option.none, []⟩
        ⟨7, 1, OpOutcome.success (PyVal.val 9), 5, some ⟨some 50⟩⟩ =
      ⟨100, 0, [], [], [], Option.none, []⟩ ∧
    control_flow ⟨100, 0, [], [], [], Option.none, []⟩
        [QItem.call ⟨7, 1, OpOutcome.success (PyVal.val 9), 5, some ⟨some 50⟩⟩] =
      control_flow ⟨100, 0, [], [], [], Option.none, []⟩ [] :=
  C3_expired_skip ⟨100, 0, [], [], [], Option.none, []⟩
    ⟨7, 1, OpOutcome.success (PyVal.val 9), 5, some ⟨some 50⟩⟩
    ⟨some 50⟩ 50 [] rfl rfl (by decide)

/-- C5: the control loop never terminates because an executed operation
failed or was interrupted: every routed call placed before the
`StopIteration` sentinel is dequeued and handled (`controlStep` is folded
over all of them, whatever their outcomes), the loop ends exactly at the
sentinel (nothing after it is processed), and with no sentinel it handles
every routed call and keeps waiting. -/
theorem C5_loop_never_dies_on_errors (s : ProcState)
    (descs : List CallDescriptor) (tail : List QItem) :
    control_flow s (descs.map QItem.call ++ QItem.stopIteration :: tail) =
      List.foldl controlStep s descs ∧
    control_flow s (descs.map QItem.call) = List.foldl controlStep s descs := by
  constructor
  · rw [control_flow_append_calls]
    rfl
  · rw [← List.append_nil (descs.map QItem.call), control_flow_append_calls]
    rfl

/-- C8: `time_stats` returns `(elapsed_total, elapsed_idle, elapsed_busy)`
with `elapsed_idle = elapsed_total - elapsed_busy`, hence
`total = idle + busy`; and the busy counter `_proc_time` is non-decreasing
across any further processing by the control loop, so `busy` never
decreases between successive invocations. -/
theorem C8_time_stats (now startTime procTime : Int) (s : ProcState)
    (q : List QItem) :
    (time_stats now startTime procTime).1 =
      (time_stats now startTime procTime).2.1 +
        (time_stats now startTime procTime).2.2 ∧
    (time_stats now startTime procTime).2.1 =
      (time_stats now startTime procTime).1 -
        (time_stats now startTime procTime).2.2 ∧
    (time_stats now startTime procTime).2.2 = procTime ∧
    s.procTime ≤ (control_flow s q).procTime := by
  refine ⟨?_, ?_, rfl, procTime_le_control_flow s q⟩
  · simp only [time_stats]
    ring
  · simp only [time_stats]

/-- C9: a descriptor whose operation the loop actually executes adds its
elapsed wall time to `_proc_time` and leaves `_ctrl_current` cleared, on
every outcome; a descriptor skipped as expired or pre-cancelled adds
nothing (and resolves nothing). -/
theorem C9_busy_accounting (s : ProcState) (d : CallDescriptor) :
    (willExecute s d = true →
      (controlStep s d).procTime = s.procTime + d.duration ∧
      (controlStep s d).ctrlCurrent = Option.none) ∧
    (willExecute s d = false →
      (controlStep s d).procTime = s.procTime ∧
      (controlStep s d).futures = s.futures) := by
  constructor
  · intro hwe
    rw [controlStep_exec s d hwe]
    exact ⟨rfl, rfl⟩
  · intro hwe
    rw [controlStep_skip s d hwe]
    exact ⟨rfl, rfl⟩

/-- Witness for C9 at a concrete executed call and a concrete
pre-cancelled call. -/
theorem C9_busy_accounting_witness :
    (controlStep ⟨100, 3, [], [], [], Option.none, []⟩
        ⟨7, 1, OpOutcome.interrupted, 5, Option.none⟩).procTime = 3 + 5 ∧
    (controlStep ⟨100, 3, [], [], [], Option.none, []⟩
        ⟨7, 1, OpOutcome.interrupted, 5, Option.none⟩).ctrlCurrent =
      Option.none :=
  (C9_busy_accounting ⟨100, 3, [], [], [], Option.none, []⟩
    ⟨7, 1, OpOutcome.interrupted, 5, Option.none⟩).1 (by decide)

/-- C10: a dequeued descriptor that passes both skip checks has its
`AsyncResult` unset on entry and set exactly once on exit, on every
outcome path: with the returned value on success and with `None` on the
interrupt, client-error and internal-error paths — a waiter of an
interrupted or failed call observes `None`, never an unresolved cell. -/
theorem C10_future_resolved (s : ProcState) (d : CallDescriptor)
    (h : willExecute s d = true) :
    arReady s d.arId = false ∧
    (controlStep s d).futures.lookup d.arId = some (resOf d.outcome) ∧
    resOf d.outcome =
      (match d.outcome with
       | OpOutcome.success v => v
       | OpOutcome.interrupted => PyVal.none
       | OpOutcome.raised _ => PyVal.none) := by
  refine ⟨((willExecute_iff s d).mp h).2, ?_, ?_⟩
  · rw [controlStep_exec s d h]
    simp [List.lookup]
  · cases d.outcome with
    | success v => rfl
    | interrupted => rfl
    | raised e => rfl

/-- Witness for C10 at a concrete internal-error call. -/
theorem C10_future_resolved_witness :
    arReady ⟨100, 0, [], [], [], Option.none, []⟩ 1 = false ∧
    (controlStep ⟨100, 0, [], [], [], Option.none, []⟩
        ⟨7, 1, OpOutcome.raised (RaisedExc.internalErr 4), 5,
          Option.none⟩).futures.lookup 1 =
      some (resOf (OpOutcome.raised (RaisedExc.internalErr 4))) ∧
    resOf (OpOutcome.raised (RaisedExc.internalErr 4)) = PyVal.none :=
  C10_future_resolved ⟨100, 0, [], [], [], Option.none, []⟩
    ⟨7, 1, OpOutcome.raised (RaisedExc.internalErr 4), 5, Option.none⟩
    (by decide)

/-- C2: `cancel_or_abort_call` resolves a still-queued call's
`AsyncResult` with the cancellation sentinel `False` and sends no
interrupt; when the call is not queued and its `AsyncResult` is unset it
leaves the state untouched and interrupts the control thread; when the
`AsyncResult` is already set and the call is not queued it does nothing.
And from any state in which the `AsyncResult` has been set (as it is by a
true cancel), the control loop never executes that call's operation body:
a dequeued descriptor with a set `AsyncResult` is skipped. -/
theorem C2_cancel_or_abort (s : ProcState) (q qLater : List QItem) (i : Nat) :
    cancel_or_abort_call s q i =
      ((if has_pending_call q i then arSet s i (PyVal.bool false) else s),
       (!has_pending_call q i && !arReady s i)) ∧
    i ∉ executedIds (arSet s i (PyVal.bool false)) qLater := by
  constructor
  · unfold cancel_or_abort_call cancel_pending_call
    cases hp : has_pending_call q i with
    | true => simp [hp]
    | false =>
      cases hr : arReady s i with
      | true => simp [hp, hr]
      | false => simp [hp, hr]
  · exact executedIds_not_ready i qLater _ (arReady_arSet_self s i (PyVal.bool false))

/-- C4 counterexample: the claim says the calling context of an internal
error receives a generic wrapped failure "carrying no internal detail",
but the code delivers `ContainerError(str(exc))` where `str(exc)` embeds
the call, its arguments and `traceback.format_exc()` of the original
failure — so the delivered exception varies with the internal failure:
two runs differing only in the internal exception deliver different
wrapped failures. -/
theorem C4_cex :
    (controlStep ⟨0, 0, [], [], [], Option.none, []⟩
        ⟨0, 1, OpOutcome.raised (RaisedExc.internalErr 1), 0,
          Option.none⟩).killed = [(0, Exc.container 1)] ∧
    (controlStep ⟨0, 0, [], [], [], Option.none, []⟩
        ⟨0, 1, OpOutcome.raised (RaisedExc.internalErr 2), 0,
          Option.none⟩).killed = [(0, Exc.container 2)] ∧
    Exc.container 1 ≠ Exc.container 2 := by decide

/-- C4 (amended): when an executed operation raises other than the
interrupt signal, the loop classifies it: a client error (`TypeError` or
`IonException`) is delivered as-is into the calling context and the error
log is untouched; any other failure is appended to the error log and the
calling context is delivered a wrapped `ContainerError` — of generic type
but whose message carries a description of the original failure — and in
every case the call's `AsyncResult` is set, so the caller is never left
waiting indefinitely. -/
theorem C4_error_classification (s : ProcState) (d : CallDescriptor)
    (h : willExecute s d = true) :
    ((controlStep s d).killed, (controlStep s d).errors) =
      (match d.outcome with
       | OpOutcome.raised (RaisedExc.clientErr c) =>
         (s.killed ++ [(d.callingGl, Exc.client c)], s.errors)
       | OpOutcome.raised (RaisedExc.internalErr c) =>
         (s.killed ++ [(d.callingGl, Exc.container c)], s.errors ++ [d.arId])
       | _ => (s.killed, s.errors)) ∧
    arReady (controlStep s d) d.arId = true := by
  constructor
  · rw [controlStep_exec s d h]
    cases ho : d.outcome with
    | success v => simp [killedOf, errorsOf, ho]
    | interrupted => simp [killedOf, errorsOf, ho]
    | raised e =>
      cases e with
      | clientErr c => simp [killedOf, errorsOf, ho]
      | internalErr c => simp [killedOf, errorsOf, ho]
  · rw [controlStep_exec s d h]
    simp [arReady, List.lookup]

/-- Witness for the amended C4 at a concrete client-error call. -/
theorem C4_error_classification_witness :
    ((controlStep ⟨0, 0, [], [], [], Option.none, []⟩
        ⟨3, 1, OpOutcome.raised (RaisedExc.clientErr 9), 2,
          Option.none⟩).killed,
     (controlStep ⟨0, 0, [], [], [], Option.none, []⟩
        ⟨3, 1, OpOutcome.raised (RaisedExc.clientErr 9), 2,
          Option.none⟩).errors) = ([(3, Exc.client 9)], []) ∧
    arReady (controlStep ⟨0, 0, [], [], [], Option.none, []⟩
        ⟨3, 1, OpOutcome.raised (RaisedExc.clientErr 9), 2,
          Option.none⟩) 1 = true :=
  C4_error_classification ⟨0, 0, [], [], [], Option.none, []⟩
    ⟨3, 1, OpOutcome.raised (RaisedExc.clientErr 9), 2, Option.none⟩
    (by decide)

/-- C6 counterexample: the claim says the stall flag becomes false
exactly when the counter exceeds the count threshold or the elapsed time
since the last state change exceeds the time threshold, but the code
compares the elapsed time with `>=`: at exactly 30000 ms elapsed (neither
condition of the claim holding — the counter is 2 and the elapsed time
does not exceed 30 s), `heartbeat` already reports a stall. -/
theorem C6_cex :
    (heartbeat 30 30 ⟨some 1, some 5, 0, 1⟩ (some 1) 5 30000).2 = false ∧
    ¬(1 + 1 > 30) ∧ ¬((30000 : Int) - (0 : Int) > (30 : Int) * 1000) := by
  decide

/-- C6 (amended): while a call is executing, an unchanged call identity
with an unchanged stack snapshot increments the consecutive-repeat
counter, and the stall flag is false exactly when that counter exceeds
the count threshold (default 30) or the elapsed time since the last state
change is at least the time threshold (default 30 s, compared with `>=`);
a changed snapshot for the same call resets the counter to 1 and the
timestamp; a different call identity resets the tracking to the new call;
with no call executing the tracking is cleared (operation unset, counter
zero) and the stall flag is true. -/
theorem C6_heartbeat_stall (ct tt : Nat) (h : HBState) (st now cur : Nat) :
    ((heartbeat ct tt h Option.none st now).1.op = Option.none ∧
     (heartbeat ct tt h Option.none st now).1.count = 0 ∧
     (heartbeat ct tt h Option.none st now).2 = true) ∧
    (h.op = some cur → h.stack = some st →
      (heartbeat ct tt h (some cur) st now).1.count = h.count + 1 ∧
      ((heartbeat ct tt h (some cur) st now).2 = false ↔
        (h.count + 1 > ct ∨
         (now : Int) - (h.time : Int) ≥ (tt : Int) * 1000))) ∧
    (h.op = some cur → h.stack ≠ some st →
      heartbeat ct tt h (some cur) st now =
        ({ h with count := 1, stack := some st, time := now }, true)) ∧
    (h.op ≠ some cur →
      heartbeat ct tt h (some cur) st now =
        (⟨some cur, some st, now, 1⟩, true)) := by
  refine ⟨⟨rfl, rfl, rfl⟩, ?_, ?_, ?_⟩
  · intro hop hst
    unfold heartbeat
    simp only [hop, if_true, hst]
    constructor
    · trivial
    · simp
      omega
  · intro hop hst
    unfold heartbeat
    simp [hop, hst]
  · intro hop
    unfold heartbeat
    simp [hop]

/-- Witness for the amended C6 at a concrete repeated observation. -/
theorem C6_heartbeat_stall_witness :
    (heartbeat 30 30 ⟨some 1, some 5, 0, 1⟩ (some 1) 5 30000).1.count = 2 ∧
    ((heartbeat 30 30 ⟨some 1, some 5, 0, 1⟩ (some 1) 5 30000).2 = false ↔
      (1 + 1 > 30 ∨ (30000 : Int) - (0 : Int) ≥ (30 : Int) * 1000)) :=
  (C6_heartbeat_stall 30 30 ⟨some 1, some 5, 0, 1⟩ 5 30000 1).2.1 rfl rfl

theorem count_map_closeListener (L : List Nat) (l : Nat) :
    (L.map StopAction.closeListener).count (StopAction.closeListener l) =
      L.count l := by
  induction L with
  | nil => rfl
  | cons x xs ih =>
    simp only [List.map_cons, List.count_cons, ih]
    congr 1
    by_cases hx : x = l
    · simp [hx]
    · simp [hx]

theorem runCleanup_not_mem_closes (L : List Nat) :
    StopAction.runCleanup ∉ L.map StopAction.closeListener := by
  simp

/-- C7: the stop sequence closes every attached listener first (each
exactly as many times as it is attached), then puts the stop sentinel on
the control queue, then waits (bounded, 30 s) for the supervised children,
re-raising an aggregated child failure; the optional cleanup hook runs
exactly once, strictly last, and only when one is present and no child
failure was re-raised. -/
theorem C7_stop_sequence (L : List Nat) (c f : Bool) :
    (∃ t, (notify_stop L c f).1 =
      L.map StopAction.closeListener ++
        StopAction.putStopSentinel :: StopAction.waitChildren 30 :: t) ∧
    ((notify_stop L c f).2 = f) ∧
    (∀ l, (notify_stop L c f).1.count (StopAction.closeListener l) =
      L.count l) ∧
    ((notify_stop L c f).1.count StopAction.runCleanup =
      if c && !f then 1 else 0) ∧
    (c = true → f = false →
      (notify_stop L c f).1.getLast? = some StopAction.runCleanup) := by
  refine ⟨?_, ?_, ?_, ?_, ?_⟩
  · cases f with
    | true => exact ⟨[], by simp [notify_stop]⟩
    | false =>
      cases c with
      | true =>
        exact ⟨[StopAction.notifyStopBase, StopAction.runCleanup],
          by simp [notify_stop]⟩
      | false => exact ⟨[StopAction.notifyStopBase], by simp [notify_stop]⟩
  · cases f <;> simp [notify_stop]
  · intro l
    cases f <;> cases c <;>
      simp [notify_stop, List.count_append, List.count_cons,
        count_map_closeListener]
  · cases f <;> cases c <;>
      simp [notify_stop, List.count_append, List.count_cons,
        List.count_eq_zero.mpr (runCleanup_not_mem_closes L)]
  · intro hc hf
    subst hc
    subst hf
    simp [notify_stop]

/-- Witness for C7 at a concrete stop with two listeners, a cleanup hook
and no child failure. -/
theorem C7_stop_sequence_witness :
    (∃ t, (notify_stop [4, 8] true false).1 =
      [4, 8].map StopAction.closeListener ++
        StopAction.putStopSentinel :: StopAction.waitChildren 30 :: t) ∧
    ((notify_stop [4, 8] true false).2 = false) ∧
    (∀ l, (notify_stop [4, 8] true false).1.count
      (StopAction.closeListener l) = [4, 8].count l) ∧
    ((notify_stop [4, 8] true false).1.count StopAction.runCleanup =
      if true && !false then 1 else 0) ∧
    (true = true → false = false →
      (notify_stop [4, 8] true false).1.getLast? =
        some StopAction.runCleanup) :=
  C7_stop_sequence [4, 8] true false

end IonProcess
